import Mathlib

/-!
Verification development for the CSV → Shapefile converter (`app.py`).

The core pipeline consists of four functions plus script-level glue:
  * `normalize_col`     — lowercases a column name and strips non-alphanumerics,
  * `guess_lat_lon_columns` — alias-based latitude/longitude column guessing,
  * `safe_shapefile_columns` — 10-character shapefile field-name sanitizing with
    case-insensitive collision resolution,
  * `build_gdf_from_csv` — numeric coercion, invalid-row dropping and point building,
  * the script-level conversion flow (empty-result check, out-of-range warning,
    optional reprojection, sanitizing, file emission).

Column names and other Python strings are embedded as `List Char`; DataFrames as
an ordered column-name list plus a row list; numeric cell values as exact
rationals or signed infinities (`NaN` as a failed coercion, which is what the
`dropna` step removes).
-/

set_option maxRecDepth 4000

abbrev Name := List Char

/-- Characters kept unchanged by the sanitizer's regex `[^A-Za-z0-9_]`:
ASCII letters, digits and underscore. -/
def isAlnumUnd (c : Char) : Bool :=
  (65 ≤ c.toNat && c.toNat ≤ 90) || (97 ≤ c.toNat && c.toNat ≤ 122) ||
    (48 ≤ c.toNat && c.toNat ≤ 57) || (c.toNat == 95)

/-- One step of `re.sub(r"[^A-Za-z0-9_]", "_", s)`: keep legal characters,
replace every other character by an underscore. -/
def sanitizeChar (c : Char) : Char :=
  if isAlnumUnd c then c else '_'

/-- `base = re.sub(r"[^A-Za-z0-9_]", "_", str(c))[:10]; if not base: base = "field"`. -/
def sanitizeBase (s : Name) : Name :=
  let b := (s.map sanitizeChar).take 10
  if b = [] then "field".data else b

/-- Python `str.lower` on the ASCII names involved (per-character lowercasing). -/
def lowerName (s : Name) : Name := s.map Char.toLower

/-- Decimal digit character for a value `< 10` (as produced by Python `str`). -/
def digitChar (n : Nat) : Char :=
  if n = 0 then '0' else if n = 1 then '1' else if n = 2 then '2'
  else if n = 3 then '3' else if n = 4 then '4' else if n = 5 then '5'
  else if n = 6 then '6' else if n = 7 then '7' else if n = 8 then '8' else '9'

/-- Decimal representation worker, structurally recursive on a fuel argument
so that it evaluates inside the kernel; any fuel `> n` gives the true decimal
digits of `n`. -/
def natReprAux : Nat → Nat → Name
  | 0, _ => []
  | fuel + 1, n =>
      if n < 10 then [digitChar n]
      else natReprAux fuel (n / 10) ++ [digitChar (n % 10)]

/-- Python `str(i)` for a natural number: usual decimal representation. -/
def natRepr (n : Nat) : Name := natReprAux (n + 1) n

theorem natReprAux_fuel_irrel (n : Nat) : ∀ f₁ f₂, n < f₁ → n < f₂ →
    natReprAux f₁ n = natReprAux f₂ n := by
  induction n using Nat.strong_induction_on with
  | _ n ih =>
      intro f₁ f₂ h₁ h₂
      match f₁, f₂, h₁, h₂ with
      | a + 1, b + 1, _, _ =>
        show natReprAux (a + 1) n = natReprAux (b + 1) n
        by_cases hn : n < 10
        · simp [natReprAux, hn]
        · have hdiv : n / 10 < n := Nat.div_lt_self (by omega) (by omega)
          simp only [natReprAux, hn, if_false]
          rw [ih (n / 10) hdiv a b (by omega) (by omega)]

/-- The defining recurrence of the decimal representation. -/
theorem natRepr_eq (n : Nat) : natRepr n =
    if n < 10 then [digitChar n] else natRepr (n / 10) ++ [digitChar (n % 10)] := by
  by_cases hn : n < 10
  · simp [natRepr, natReprAux, hn]
  · have hdiv : n / 10 < n := Nat.div_lt_self (by omega) (by omega)
    rw [if_neg hn]
    have h1 : natRepr n = natReprAux n (n / 10) ++ [digitChar (n % 10)] := by
      simp only [natRepr, natReprAux]
      rw [if_neg hn]
    rw [h1, natReprAux_fuel_irrel (n / 10) n (n / 10 + 1) (by omega) (by omega)]
    rfl

/-- The collision candidate for suffix number `i`:
`(base[: max(0, 10 - len(str(i)))] + str(i))[:10]`. -/
def candAt (base : Name) (i : Nat) : Name :=
  ((base.take (10 - (natRepr i).length)) ++ natRepr i).take 10

/-- The suffix-search loop of `safe_shapefile_columns`, with explicit fuel:
starting at suffix index `i`, return the first candidate whose lowercased form
is not in `used`. -/
def pickNameAux (base : Name) (used : List Name) : Nat → Nat → Option Name
  | 0, _ => none
  | fuel + 1, i =>
      let c := candAt base i
      if lowerName c ∈ used then pickNameAux base used fuel (i + 1) else some c

/-- Search fuel: large enough for every remotely realizable input (the proof
below shows it suffices whenever `used` has fewer than `9 * 10 ^ 8` entries). -/
def pickFuel : Nat := 10 ^ 9

/-- The body of `safe_shapefile_columns` for one column: `candidate = base`,
then the `while candidate.lower() in used` suffix loop starting at `i = 1`. -/
def pickName (base : Name) (used : List Name) : Option Name :=
  if lowerName base ∈ used then pickNameAux base used pickFuel 1 else some base

/-- The full column loop of `safe_shapefile_columns` over the column-name list,
accumulating the lowercased assigned names in `used`. -/
def safeNames (used : List Name) : List Name → Option (List Name)
  | [] => some []
  | c :: cs =>
      match pickName (sanitizeBase c) used with
      | none => none
      | some name =>
          match safeNames (lowerName name :: used) cs with
          | none => none
          | some rest => some (name :: rest)

/-- Whitespace characters removed by Python `str.strip`. -/
def isSpaceChar (c : Char) : Bool :=
  c == ' ' || c == '\t' || c == '\n' || c == '\r'

/-- Python `str.strip()` (leading and trailing whitespace removal). -/
def trimName (s : Name) : Name :=
  ((s.dropWhile isSpaceChar).reverse.dropWhile isSpaceChar).reverse

/-- Characters kept by the normalizer's regex `[^a-z0-9]+`: lowercase ASCII
letters and digits. -/
def isLowerAlnum (c : Char) : Bool :=
  (97 ≤ c.toNat && c.toNat ≤ 122) || (48 ≤ c.toNat && c.toNat ≤ 57)

/-- `normalize_col`: `re.sub(r"[^a-z0-9]+", "", str(s).strip().lower())`. -/
def normalize_col (s : Name) : Name :=
  ((trimName s).map Char.toLower).filter isLowerAlnum

def LAT_ALIASES : List Name :=
  ["lat".data, "latitude".data, "y".data, "ycoord".data, "ycoordinate".data]

def LON_ALIASES : List Name :=
  ["lon".data, "long".data, "longitude".data, "x".data, "xcoord".data,
    "xcoordinate".data]

/-- `guess_lat_lon_columns`: first column (in original order) whose normalized
form is a latitude alias, and likewise for longitude.  The Python code builds
an insertion-ordered `{column: normalized}` map and takes the head of each
candidate list, which selects exactly the first match in column order. -/
def guess_lat_lon_columns (cols : List Name) : Option Name × Option Name :=
  (cols.find? (fun c => decide (normalize_col c ∈ LAT_ALIASES)),
   cols.find? (fun c => decide (normalize_col c ∈ LON_ALIASES)))

/-- A numeric value as the coercion produces it: an exact rational or a signed
infinity (Python floats carry infinities; `"inf"` cells coerce to them).  A
`NaN` outcome is modelled as a failed coercion (`none`), since `dropna`
removes `NaN` rows exactly as it removes failed parses. -/
inductive PyFloat where
  | fin (q : ℚ)
  | posInf
  | negInf
deriving DecidableEq

def pfNeg : PyFloat → PyFloat
  | .fin q => .fin (-q)
  | .posInf => .negInf
  | .negInf => .posInf

def pfIsFinite : PyFloat → Bool
  | .fin _ => true
  | _ => false

/-- `v.abs() > b` on a coerced value; infinities exceed every bound. -/
def pfAbsGt (v : PyFloat) (b : ℚ) : Bool :=
  match v with
  | .fin q => decide (b < |q|)
  | .posInf => true
  | .negInf => true

/-- A tabular cell: numeric, textual, or missing. -/
inductive Cell where
  | num (v : PyFloat)
  | text (s : Name)
  | na
deriving DecidableEq

def isDigitC (c : Char) : Bool := 48 ≤ c.toNat && c.toNat ≤ 57

def digitVal (c : Char) : Nat := c.toNat - 48

def digitsVal (l : Name) : Nat := l.foldl (fun a c => 10 * a + digitVal c) 0

/-- Optional exponent tail of a float literal: empty, or `e`/`E`, an optional
sign and at least one digit. -/
def parseExp (s : Name) : Option Int :=
  match s with
  | [] => some 0
  | e :: t =>
      if e = 'e' ∨ e = 'E' then
        match t with
        | '+' :: d =>
            if d ≠ [] ∧ d.all isDigitC then some (Int.ofNat (digitsVal d))
            else none
        | '-' :: d =>
            if d ≠ [] ∧ d.all isDigitC then some (-Int.ofNat (digitsVal d))
            else none
        | d =>
            if d ≠ [] ∧ d.all isDigitC then some (Int.ofNat (digitsVal d))
            else none
      else none

/-- Mantissa of a float literal, `digits[.digits]` with at least one digit:
returns the combined digit value, the fraction length, and the unread rest. -/
def parseMantissa (s : Name) : Option (Nat × Nat × Name) :=
  let ip := s.takeWhile isDigitC
  let rest1 := s.dropWhile isDigitC
  match rest1 with
  | '.' :: t =>
      let frac := t.takeWhile isDigitC
      let rest2 := t.dropWhile isDigitC
      if ip = [] ∧ frac = [] then none
      else some (digitsVal ip * 10 ^ frac.length + digitsVal frac,
        frac.length, rest2)
  | _ => if ip = [] then none else some (digitsVal ip, 0, rest1)

/-- Unsigned float literal: the infinity words (case-insensitive), or a
mantissa with an optional exponent; the value `m * 10 ^ (e - fracLen)` is
assembled as a single exact rational. -/
def parseUnsigned (s : Name) : Option PyFloat :=
  if lowerName s = "inf".data ∨ lowerName s = "infinity".data then
    some PyFloat.posInf
  else
    match parseMantissa s with
    | none => none
    | some (m, fl, rest) =>
        match parseExp rest with
        | none => none
        | some e =>
            let p : Int := e - Int.ofNat fl
            if 0 ≤ p then
              some (PyFloat.fin (mkRat (Int.ofNat (m * 10 ^ p.toNat)) 1))
            else some (PyFloat.fin (mkRat (Int.ofNat m) (10 ^ (-p).toNat)))

/-- Numeric parsing of a string cell, as the numeric coercion performs it:
optional surrounding whitespace, optional sign, then either a decimal literal
(optional fraction, optional `e`/`E` exponent) or an infinity word (`inf`,
`infinity`, any case).  `nan` and anything unparsable fail (and failed parses
are what `dropna` later removes). -/
def parseDecimal (s : Name) : Option PyFloat :=
  match trimName s with
  | '-' :: t => (parseUnsigned t).map pfNeg
  | '+' :: t => parseUnsigned t
  | t => parseUnsigned t

/-- `pd.to_numeric(·, errors="coerce")` on one cell: numbers pass through,
strings are parsed, anything unparsable or missing becomes missing. -/
def toNumericCell : Cell → Option PyFloat
  | .num v => some v
  | .text s => parseDecimal s
  | .na => none

/-- Repack the coercion result as a cell (`NaN` for a failed parse). -/
def numCell : Option PyFloat → Cell
  | some v => .num v
  | none => .na

/-- A DataFrame: ordered column names plus rows of cells (row `r`'s cell for
column `k` sits at position `k`). -/
structure DF where
  cols : List Name
  rows : List (List Cell)
deriving DecidableEq

/-- A GeoDataFrame: the surviving attribute table plus one point per row and
a CRS tag.  Points are `(x, y) = (longitude, latitude)` pairs. -/
structure GDF where
  cols : List Name
  rows : List (List Cell)
  points : List (PyFloat × PyFloat)
  crs : Name
deriving DecidableEq

/-- `work[col] = pd.to_numeric(work[col], errors="coerce")` restricted to one
row: replace the cell at `idx` by its coerced form. -/
def coerceAt (idx : Nat) (r : List Cell) : List Cell :=
  r.set idx (numCell (toNumericCell (r.getD idx .na)))

def cellIsNum : Cell → Bool
  | .num _ => true
  | _ => false

def cellVal : Cell → PyFloat
  | .num v => v
  | _ => .fin 0

/-- `build_gdf_from_csv`: coerce the latitude then the longitude column to
numeric, drop rows missing either, and build one `(lon, lat)` point per
surviving row with the fixed CRS `EPSG:4326`.  `none` models the exception a
missing column raises (caught by the caller). -/
def build_gdf_from_csv (df : DF) (latCol lonCol : Name) : Option GDF :=
  match df.cols.findIdx? (fun c => decide (c = latCol)),
      df.cols.findIdx? (fun c => decide (c = lonCol)) with
  | some li, some lo =>
      let coerced := df.rows.map (fun r => coerceAt lo (coerceAt li r))
      let surv := coerced.filter
        (fun r => cellIsNum (r.getD li .na) && cellIsNum (r.getD lo .na))
      some { cols := df.cols
             rows := surv
             points := surv.map
               (fun r => (cellVal (r.getD lo .na), cellVal (r.getD li .na)))
             crs := "EPSG:4326".data }
  | _, _ => none

/-- `safe_shapefile_columns` at the DataFrame level: rename the columns via
the sanitizing loop, keep the rows (`out = df.copy(); out.columns = new_cols`). -/
def safe_shapefile_columns (df : DF) : Option DF :=
  match safeNames [] df.cols with
  | none => none
  | some ncs => some { cols := ncs, rows := df.rows }

/-- The distinct failure kinds of the conversion flow (each `st.error` +
`st.stop` site between building the GeoDataFrame and writing the file). -/
inductive PipeError where
  | buildFailure
  | emptyResult
  | reprojectFailed (cause : Name)
deriving DecidableEq

/-- The data handed to the shapefile writer on success: sanitized column
names, attribute rows, points, output CRS, plus the advisory out-of-range
count surfaced as a warning. -/
structure ConvertResult where
  cols : List Name
  rows : List (List Cell)
  points : List (PyFloat × PyFloat)
  crs : Name
  outOfRange : Nat
deriving DecidableEq

/-- The preview's advisory range check:
`(gdf.geometry.y.abs() > 90) | (gdf.geometry.x.abs() > 180)`. -/
def outOfRangePt (p : PyFloat × PyFloat) : Bool :=
  pfAbsGt p.2 90 || pfAbsGt p.1 180

/-- The script-level conversion flow from a parsed DataFrame to the writer
input: build the WGS84 GeoDataFrame (`buildFailure` on exception), stop with
`emptyResult` when no rows survive coercion, count out-of-range points
(advisory warning only), reproject when a non-default output CRS was chosen
(`reprojectFailed` carrying the cause on failure), then sanitize the
attribute column names.  `reproj` abstracts the external `to_crs` transform;
`none` models divergence of the sanitizer's suffix search. -/
def runPipeline (reproj : GDF → Name → Except Name GDF) (df : DF)
    (latCol lonCol : Name) (outCrs : Name) :
    Option (Except PipeError ConvertResult) :=
  match build_gdf_from_csv df latCol lonCol with
  | none => some (Except.error PipeError.buildFailure)
  | some gdfW =>
      if gdfW.rows.length = 0 then some (Except.error PipeError.emptyResult)
      else
        let bad := gdfW.points.countP outOfRangePt
        match (if outCrs = "EPSG:4326".data then Except.ok gdfW
               else reproj gdfW outCrs) with
        | Except.error e => some (Except.error (PipeError.reprojectFailed e))
        | Except.ok gdfOut =>
            match safeNames [] gdfOut.cols with
            | none => none
            | some ncs =>
                some (Except.ok
                  { cols := ncs, rows := gdfOut.rows, points := gdfOut.points,
                    crs := gdfOut.crs, outOfRange := bad })

example : sanitizeBase "Station Name (ID)".data = "Station_Na".data := by decide
example : sanitizeBase "Temp-C".data = "Temp_C".data := by decide
example : sanitizeBase "".data = "field".data := by decide
example : natRepr 1 = ['1'] := by decide
example : natRepr 123 = ['1', '2', '3'] := by decide
example : safeNames [] ["Temp-C".data, "Temp_C".data] =
    some ["Temp_C".data, "Temp_C1".data] := by decide
example : normalize_col "Lat".data = "lat".data := by decide
example : guess_lat_lon_columns
    ["Station Name (ID)".data, "Lat".data, "Lon".data] =
    (some "Lat".data, some "Lon".data) := by decide
example : parseDecimal "30.284".data = some (PyFloat.fin (mkRat 30284 1000)) := by decide
example : parseDecimal "A-1".data = none := by decide
example : parseDecimal "abc".data = none := by decide
example : parseDecimal "1e5".data = some (PyFloat.fin (mkRat 100000 1)) := by decide
example : parseDecimal "1.2e-3".data = some (PyFloat.fin (mkRat 12 10000)) := by decide
example : parseDecimal "inf".data = some PyFloat.posInf := by decide
example : parseDecimal "-Infinity".data = some PyFloat.negInf := by decide
example : parseDecimal "nan".data = none := by decide
example : (build_gdf_from_csv
    ⟨["Station Name (ID)".data, "Lat".data, "Lon".data],
      [[Cell.text "A-1".data, Cell.text "30.284".data, Cell.text "77.985".data]]⟩
    "Lat".data "Lon".data).map GDF.points =
    some [(PyFloat.fin (mkRat 77985 1000), PyFloat.fin (mkRat 30284 1000))] := by decide

/-! ### Shape of sanitized names -/

theorem isAlnumUnd_sanitizeChar (c : Char) : isAlnumUnd (sanitizeChar c) = true := by
  unfold sanitizeChar
  split
  · assumption
  · decide

theorem sanitizeBase_ne_nil (s : Name) : sanitizeBase s ≠ [] := by
  simp only [sanitizeBase]
  split
  · decide
  · assumption

theorem sanitizeBase_length (s : Name) : (sanitizeBase s).length ≤ 10 := by
  simp only [sanitizeBase]
  split
  · decide
  · exact List.length_take_le 10 _

theorem sanitizeBase_alnum (s : Name) : ∀ c ∈ sanitizeBase s, isAlnumUnd c = true := by
  simp only [sanitizeBase]
  split
  · decide
  · intro c hc
    have hc2 := List.mem_of_mem_take hc
    obtain ⟨a, _, rfl⟩ := List.mem_map.mp hc2
    exact isAlnumUnd_sanitizeChar a

theorem isDigitC_digitChar (n : Nat) : isDigitC (digitChar n) = true := by
  unfold digitChar
  repeat' split
  all_goals decide

theorem natRepr_digits (n : Nat) : ∀ c ∈ natRepr n, isDigitC c = true := by
  induction n using Nat.strong_induction_on with
  | _ n ih =>
      by_cases hn : n < 10
      · rw [natRepr_eq, if_pos hn]
        intro c hc
        rw [List.mem_singleton] at hc
        subst hc
        exact isDigitC_digitChar n
      · rw [natRepr_eq, if_neg hn]
        intro c hc
        rcases List.mem_append.mp hc with h | h
        · exact ih (n / 10) (Nat.div_lt_self (by omega) (by omega)) c h
        · rw [List.mem_singleton] at h
          subst h
          exact isDigitC_digitChar _

theorem natRepr_ne_nil (n : Nat) : natRepr n ≠ [] := by
  by_cases hn : n < 10
  · rw [natRepr_eq, if_pos hn]
    simp
  · rw [natRepr_eq, if_neg hn]
    simp

theorem isAlnumUnd_of_isDigitC (c : Char) (h : isDigitC c = true) :
    isAlnumUnd c = true := by
  simp only [isDigitC, Bool.and_eq_true, decide_eq_true_eq] at h
  simp only [isAlnumUnd, Bool.or_eq_true, Bool.and_eq_true, decide_eq_true_eq,
    beq_iff_eq]
  omega

theorem candAt_ne_nil (base : Name) (i : Nat) : candAt base i ≠ [] := by
  unfold candAt
  intro h
  rw [List.take_eq_nil_iff] at h
  rcases h with h | h
  · exact absurd h (by decide)
  · exact natRepr_ne_nil i (List.append_eq_nil.mp h).2

theorem candAt_length (base : Name) (i : Nat) : (candAt base i).length ≤ 10 :=
  List.length_take_le 10 _

theorem candAt_alnum (base : Name) (i : Nat)
    (hb : ∀ c ∈ base, isAlnumUnd c = true) :
    ∀ c ∈ candAt base i, isAlnumUnd c = true := by
  intro c hc
  have hc2 := List.mem_of_mem_take hc
  rcases List.mem_append.mp hc2 with h | h
  · exact hb c (List.mem_of_mem_take h)
  · exact isAlnumUnd_of_isDigitC c (natRepr_digits i c h)

/-! ### The suffix-search loop: what a successful search returns -/

theorem pickNameAux_some (base : Name) (used : List Name) :
    ∀ fuel i c, pickNameAux base used fuel i = some c →
      lowerName c ∉ used ∧ ∃ j, i ≤ j ∧ c = candAt base j ∧
        ∀ k, i ≤ k → k < j → lowerName (candAt base k) ∈ used := by
  intro fuel
  induction fuel with
  | zero => intro i c h; simp [pickNameAux] at h
  | succ f ih =>
      intro i c h
      simp only [pickNameAux] at h
      split at h
      · obtain ⟨hnot, j, hij, rfl, hall⟩ := ih (i + 1) c h
        refine ⟨hnot, j, by omega, rfl, ?_⟩
        intro k hk1 hk2
        by_cases hk : k = i
        · subst hk; assumption
        · exact hall k (by omega) hk2
      · obtain rfl := Option.some.inj h
        refine ⟨by assumption, i, Nat.le_refl i, rfl, ?_⟩
        intro k hk1 hk2
        omega

theorem pickName_collision (base : Name) (used : List Name) (c : Name)
    (hcoll : lowerName base ∈ used) (h : pickName base used = some c) :
    lowerName c ∉ used ∧ ∃ j, 1 ≤ j ∧ c = candAt base j ∧
      ∀ k, 1 ≤ k → k < j → lowerName (candAt base k) ∈ used := by
  unfold pickName at h
  rw [if_pos hcoll] at h
  exact pickNameAux_some base used pickFuel 1 c h

theorem pickName_props (s : Name) (used : List Name) (c : Name)
    (h : pickName (sanitizeBase s) used = some c) :
    lowerName c ∉ used ∧ c ≠ [] ∧ c.length ≤ 10 ∧
      ∀ ch ∈ c, isAlnumUnd ch = true := by
  unfold pickName at h
  split at h
  · obtain ⟨hnot, j, _, rfl, _⟩ := pickNameAux_some _ used pickFuel 1 c h
    exact ⟨hnot, candAt_ne_nil _ j, candAt_length _ j,
      candAt_alnum _ j (sanitizeBase_alnum s)⟩
  · obtain rfl := Option.some.inj h
    exact ⟨by assumption, sanitizeBase_ne_nil s, sanitizeBase_length s,
      sanitizeBase_alnum s⟩

/-! ### The column loop: shape of a successful sanitization -/

theorem safeNames_props : ∀ cs used out, safeNames used cs = some out →
    out.length = cs.length ∧ (out.map lowerName).Nodup ∧
    (∀ n ∈ out, lowerName n ∉ used) ∧
    ∀ n ∈ out, n ≠ [] ∧ n.length ≤ 10 ∧ ∀ ch ∈ n, isAlnumUnd ch = true := by
  intro cs
  induction cs with
  | nil =>
      intro used out h
      simp only [safeNames] at h
      obtain rfl := Option.some.inj h
      simp
  | cons c cs ih =>
      intro used out h
      cases hp : pickName (sanitizeBase c) used with
      | none => simp only [safeNames, hp] at h; exact absurd h (by simp)
      | some name =>
          cases hr : safeNames (lowerName name :: used) cs with
          | none => simp only [safeNames, hp, hr] at h; exact absurd h (by simp)
          | some rest =>
              simp only [safeNames, hp, hr] at h
              obtain rfl := Option.some.inj h
              obtain ⟨hfresh, hshape⟩ :=
                And.intro (pickName_props c used name hp).1
                  (pickName_props c used name hp).2
              obtain ⟨hlen, hnodup, hfr, hsh⟩ := ih (lowerName name :: used) rest hr
              refine ⟨by simp [hlen], ?_, ?_, ?_⟩
              · rw [List.map_cons, List.nodup_cons]
                refine ⟨?_, hnodup⟩
                intro hmem
                obtain ⟨n, hn, hn2⟩ := List.mem_map.mp hmem
                exact (hfr n hn) (by rw [hn2]; exact List.mem_cons_self _ _)
              · intro n hn
                rcases List.mem_cons.mp hn with rfl | hn2
                · exact hfresh
                · intro hmem
                  exact (hfr n hn2) (List.mem_cons_of_mem _ hmem)
              · intro n hn
                rcases List.mem_cons.mp hn with rfl | hn2
                · exact hshape
                · exact hsh n hn2

/-! ### Termination of the suffix search -/

theorem natRepr_length (d : Nat) : ∀ n, 10 ^ d ≤ n → n < 10 ^ (d + 1) →
    (natRepr n).length = d + 1 := by
  induction d with
  | zero =>
      intro n h1 h2
      rw [natRepr_eq, if_pos (by simpa using h2)]
      rfl
  | succ d ih =>
      intro n h1 h2
      have h10 : ¬n < 10 := by
        have : (10 : Nat) ^ 1 ≤ 10 ^ (d + 1) := Nat.pow_le_pow_right (by omega) (by omega)
        simp only [pow_one] at this
        omega
      rw [natRepr_eq, if_neg h10, List.length_append]
      have hlo : 10 ^ d ≤ n / 10 := by
        rw [Nat.le_div_iff_mul_le (by omega)]
        calc 10 ^ d * 10 = 10 ^ (d + 1) := by rw [pow_succ]
        _ ≤ n := h1
      have hhi : n / 10 < 10 ^ (d + 1) := by
        rw [Nat.div_lt_iff_lt_mul (by omega)]
        calc n < 10 ^ (d + 1 + 1) := h2
        _ = 10 ^ (d + 1) * 10 := by rw [pow_succ]
      rw [ih (n / 10) hlo hhi]
      rfl

theorem toLower_digit (c : Char) (h : isDigitC c = true) : c.toLower = c := by
  simp only [isDigitC, Bool.and_eq_true, decide_eq_true_eq] at h
  simp only [Char.toLower]
  split
  · omega
  · rfl

theorem lowerName_of_fixed (l : Name) (h : ∀ c ∈ l, c.toLower = c) :
    lowerName l = l := by
  induction l with
  | nil => rfl
  | cons c l ih =>
      simp only [lowerName, List.map_cons]
      rw [h c (List.mem_cons_self c l),
        show List.map Char.toLower l = lowerName l from rfl,
        ih (fun d hd => h d (List.mem_cons_of_mem c hd))]

theorem lowerName_natRepr (i : Nat) : lowerName (natRepr i) = natRepr i :=
  lowerName_of_fixed _ (fun c hc => toLower_digit c (natRepr_digits i c hc))

theorem digitChar_inj (a b : Nat) (ha : a < 10) (hb : b < 10)
    (h : digitChar a = digitChar b) : a = b := by
  interval_cases a <;> interval_cases b <;> first | rfl | exact absurd h (by decide)

theorem natRepr_inj : ∀ a b, natRepr a = natRepr b → a = b := by
  intro a
  induction a using Nat.strong_induction_on with
  | _ a ih =>
      intro b h
      by_cases ha : a < 10 <;> by_cases hb : b < 10
      · rw [natRepr_eq a, if_pos ha, natRepr_eq b, if_pos hb] at h
        exact digitChar_inj a b ha hb (List.cons.inj h).1
      · rw [natRepr_eq a, if_pos ha, natRepr_eq b, if_neg hb] at h
        have := congrArg List.length h
        simp only [List.length_singleton, List.length_append] at this
        have h2 : natRepr (b / 10) ≠ [] := natRepr_ne_nil _
        have h3 : 0 < (natRepr (b / 10)).length := List.length_pos.mpr h2
        omega
      · rw [natRepr_eq a, if_neg ha, natRepr_eq b, if_pos hb] at h
        have := congrArg List.length h
        simp only [List.length_singleton, List.length_append] at this
        have h2 : natRepr (a / 10) ≠ [] := natRepr_ne_nil _
        have h3 : 0 < (natRepr (a / 10)).length := List.length_pos.mpr h2
        omega
      · rw [natRepr_eq a, if_neg ha, natRepr_eq b, if_neg hb] at h
        have hrev := congrArg List.reverse h
        simp only [List.reverse_append, List.reverse_singleton, List.singleton_append,
          List.cons.injEq] at hrev
        obtain ⟨hdig, htail⟩ := hrev
        have hmod : a % 10 = b % 10 :=
          digitChar_inj _ _ (Nat.mod_lt _ (by omega)) (Nat.mod_lt _ (by omega)) hdig
        have hdiv : a / 10 = b / 10 := by
          apply ih (a / 10) (Nat.div_lt_self (by omega) (by omega))
          have := congrArg List.reverse htail
          simpa using this
        omega

theorem candAt_block_eq (base : Name) (i : Nat) (h1 : 10 ^ 8 ≤ i)
    (h2 : i < 10 ^ 9) : candAt base i = base.take 1 ++ natRepr i := by
  have hlen : (natRepr i).length = 9 := natRepr_length 8 i h1 h2
  unfold candAt
  rw [hlen]
  show (base.take 1 ++ natRepr i).take 10 = base.take 1 ++ natRepr i
  apply List.take_of_length_le
  rw [List.length_append, hlen]
  have := List.length_take_le 1 base
  omega

theorem lower_candAt_inj_block (base : Name) (i j : Nat)
    (hi1 : 10 ^ 8 ≤ i) (hi2 : i < 10 ^ 9) (hj1 : 10 ^ 8 ≤ j) (hj2 : j < 10 ^ 9)
    (h : lowerName (candAt base i) = lowerName (candAt base j)) : i = j := by
  rw [candAt_block_eq base i hi1 hi2, candAt_block_eq base j hj1 hj2] at h
  simp only [lowerName, List.map_append] at h
  have h2 := List.append_cancel_left h
  rw [show List.map Char.toLower (natRepr i) = lowerName (natRepr i) from rfl,
    show List.map Char.toLower (natRepr j) = lowerName (natRepr j) from rfl,
    lowerName_natRepr, lowerName_natRepr] at h2
  exact natRepr_inj i j h2

theorem exists_fresh_in_block (base : Name) (used : List Name)
    (hsmall : used.length < 9 * 10 ^ 8) :
    ∃ j, 10 ^ 8 ≤ j ∧ j < 10 ^ 9 ∧ lowerName (candAt base j) ∉ used := by
  by_contra hcon
  push_neg at hcon
  have hmaps : ∀ j ∈ Finset.Ico (10 ^ 8 : ℕ) (10 ^ 9),
      lowerName (candAt base j) ∈ used.toFinset := by
    intro j hj
    rw [List.mem_toFinset]
    exact hcon j (Finset.mem_Ico.mp hj).1 (Finset.mem_Ico.mp hj).2
  have hinj : Set.InjOn (fun j => lowerName (candAt base j))
      ((Finset.Ico (10 ^ 8 : ℕ) (10 ^ 9) : Finset ℕ) : Set ℕ) := by
    intro a ha b hb heq
    rw [Finset.mem_coe, Finset.mem_Ico] at ha hb
    exact lower_candAt_inj_block base a b ha.1 ha.2 hb.1 hb.2 heq
  have hcard := Finset.card_le_card_of_injOn _ hmaps hinj
  rw [Nat.card_Ico] at hcard
  have hfin := used.toFinset_card_le
  have he8 : (10 : ℕ) ^ 8 = 100000000 := by norm_num
  have he9 : (10 : ℕ) ^ 9 = 1000000000 := by norm_num
  omega

theorem pickNameAux_finds (base : Name) (used : List Name) :
    ∀ fuel i, (∃ j, i ≤ j ∧ j < i + fuel ∧ lowerName (candAt base j) ∉ used) →
      ∃ c, pickNameAux base used fuel i = some c := by
  intro fuel
  induction fuel with
  | zero =>
      intro i h
      obtain ⟨j, h1, h2, _⟩ := h
      omega
  | succ f ih =>
      intro i h
      obtain ⟨j, h1, h2, h3⟩ := h
      simp only [pickNameAux]
      split
      · apply ih (i + 1)
        refine ⟨j, ?_, by omega, h3⟩
        rcases Nat.eq_or_lt_of_le h1 with rfl | hlt
        · exact absurd (by assumption) h3
        · omega
      · exact ⟨candAt base i, rfl⟩

theorem pickName_total (base : Name) (used : List Name)
    (hsmall : used.length < 9 * 10 ^ 8) : ∃ c, pickName base used = some c := by
  unfold pickName
  split
  · obtain ⟨j, hj1, hj2, hj3⟩ := exists_fresh_in_block base used hsmall
    apply pickNameAux_finds base used pickFuel 1
    refine ⟨j, ?_, ?_, hj3⟩
    · have : (1 : ℕ) ≤ 10 ^ 8 := Nat.one_le_pow _ _ (by omega)
      omega
    · have : (10 : ℕ) ^ 9 ≤ 1 + pickFuel := by
        unfold pickFuel
        omega
      omega
  · exact ⟨base, rfl⟩

theorem safeNames_total : ∀ cs used, used.length + cs.length ≤ 9 * 10 ^ 8 →
    ∃ out, safeNames used cs = some out := by
  intro cs
  induction cs with
  | nil => intro used _; exact ⟨[], rfl⟩
  | cons c cs ih =>
      intro used hsz
      obtain ⟨name, hname⟩ := pickName_total (sanitizeBase c) used
        (by simp only [List.length_cons] at hsz; omega)
      obtain ⟨rest, hrest⟩ := ih (lowerName name :: used)
        (by simp only [List.length_cons] at hsz ⊢; omega)
      exact ⟨name :: rest, by simp only [safeNames, hname, hrest]⟩

/-! ### Idempotence ingredients -/

theorem map_sanitizeChar_fixed : ∀ l : Name, (∀ c ∈ l, isAlnumUnd c = true) →
    l.map sanitizeChar = l := by
  intro l
  induction l with
  | nil => intro _; rfl
  | cons c l ih =>
      intro h
      simp only [List.map_cons]
      rw [show sanitizeChar c = c from by
          unfold sanitizeChar; rw [if_pos (h c (List.mem_cons_self c l))],
        ih (fun d hd => h d (List.mem_cons_of_mem c hd))]

theorem sanitizeBase_clean (s : Name) (h0 : s ≠ []) (h1 : s.length ≤ 10)
    (h2 : ∀ c ∈ s, isAlnumUnd c = true) : sanitizeBase s = s := by
  simp only [sanitizeBase]
  rw [map_sanitizeChar_fixed s h2, List.take_of_length_le h1, if_neg h0]

theorem safeNames_clean_fixed : ∀ names used,
    (∀ n ∈ names, n ≠ [] ∧ n.length ≤ 10 ∧ ∀ ch ∈ n, isAlnumUnd ch = true) →
    (names.map lowerName).Nodup →
    (∀ n ∈ names, lowerName n ∉ used) →
    safeNames used names = some names := by
  intro names
  induction names with
  | nil => intro used _ _ _; rfl
  | cons n ns ih =>
      intro used hcl hnd hfr
      obtain ⟨h0, h1, h2⟩ := hcl n (List.mem_cons_self n ns)
      have hnd2 : lowerName n ∉ ns.map lowerName ∧ (ns.map lowerName).Nodup := by
        rw [List.map_cons, List.nodup_cons] at hnd
        exact hnd
      have hpick : pickName (sanitizeBase n) used = some n := by
        rw [sanitizeBase_clean n h0 h1 h2]
        unfold pickName
        rw [if_neg (hfr n (List.mem_cons_self n ns))]
      have hrest : safeNames (lowerName n :: used) ns = some ns := by
        apply ih
        · intro m hm
          exact hcl m (List.mem_cons_of_mem n hm)
        · exact hnd2.2
        · intro m hm hmem
          rcases List.mem_cons.mp hmem with heq | hmem2
          · exact hnd2.1 (heq ▸ List.mem_map_of_mem lowerName hm)
          · exact hfr m (List.mem_cons_of_mem n hm) hmem2
      simp only [safeNames, hpick, hrest]

/-! ### Claim theorems: the Field Sanitizer -/

/-- C1: for every column-name list (of any realizable size — up to 900 million
columns), `safe_shapefile_columns` terminates with one output name per input
name; the outputs are pairwise case-insensitively distinct, non-empty, at most
10 characters long, and consist only of letters, digits and underscores. -/
theorem sanitizer_total_and_wellformed (df : DF)
    (h : df.cols.length ≤ 9 * 10 ^ 8) :
    ∃ out : DF, safe_shapefile_columns df = some out ∧
      out.cols.length = df.cols.length ∧
      (out.cols.map lowerName).Nodup ∧
      ∀ n ∈ out.cols, n ≠ [] ∧ n.length ≤ 10 ∧
        ∀ ch ∈ n, isAlnumUnd ch = true := by
  obtain ⟨ncs, hncs⟩ := safeNames_total df.cols [] (by simpa using h)
  obtain ⟨h1, h2, _, h4⟩ := safeNames_props df.cols [] ncs hncs
  refine ⟨⟨ncs, df.rows⟩, ?_, h1, h2, h4⟩
  unfold safe_shapefile_columns
  rw [hncs]

theorem sanitizer_total_and_wellformed_witness :
    ∃ out : DF, safe_shapefile_columns
        ⟨["Station Name (ID)".data, "Lat".data, "Lon".data], []⟩ = some out ∧
      out.cols.length =
        (⟨["Station Name (ID)".data, "Lat".data, "Lon".data], []⟩ : DF).cols.length ∧
      (out.cols.map lowerName).Nodup ∧
      ∀ n ∈ out.cols, n ≠ [] ∧ n.length ≤ 10 ∧
        ∀ ch ∈ n, isAlnumUnd ch = true :=
  sanitizer_total_and_wellformed
    ⟨["Station Name (ID)".data, "Lat".data, "Lon".data], []⟩ (by norm_num)

/-- C10: the Field Sanitizer is idempotent — applied to its own output it
returns that output unchanged, because every emitted name is already legal
(letters/digits/underscore, length at most 10) and case-insensitively fresh. -/
theorem sanitizer_idempotent (df out : DF)
    (h : safe_shapefile_columns df = some out) :
    safe_shapefile_columns out = some out := by
  unfold safe_shapefile_columns at h ⊢
  cases hs : safeNames [] df.cols with
  | none => rw [hs] at h; exact absurd h (by simp)
  | some ncs =>
      rw [hs] at h
      obtain rfl := Option.some.inj h
      obtain ⟨_, hnodup, _, hshape⟩ := safeNames_props df.cols [] ncs hs
      rw [safeNames_clean_fixed ncs [] hshape hnodup (by intro n _; simp)]

theorem sanitizer_idempotent_witness :
    safe_shapefile_columns ⟨["Temp_C".data, "Temp_C1".data], []⟩ =
      some ⟨["Temp_C".data, "Temp_C1".data], []⟩ :=
  sanitizer_idempotent ⟨["Temp-C".data, "Temp_C".data], []⟩
    ⟨["Temp_C".data, "Temp_C1".data], []⟩ (by decide)

/-- C6: on a case-insensitive collision the final name is the first fresh
candidate `base-truncated + suffix` with the suffix counting up from 1 (all
earlier suffixes collide); the suffix is kept whole and only the base is
truncated, so candidate length stays at most 10.  In particular "Temp-C" and
"Temp_C" (whose sanitized bases are both "Temp_C") map to "Temp_C" and
"Temp_C1", never silently overwriting. -/
theorem collision_suffix_scheme :
    (safeNames [] ["Temp-C".data, "Temp_C".data] =
        some ["Temp_C".data, "Temp_C1".data]) ∧
    (∀ base used c, lowerName base ∈ used → pickName base used = some c →
        lowerName c ∉ used ∧ ∃ j, 1 ≤ j ∧ c = candAt base j ∧
          ∀ k, 1 ≤ k → k < j → lowerName (candAt base k) ∈ used) ∧
    (∀ base i, (natRepr i).length ≤ 10 →
        candAt base i = base.take (10 - (natRepr i).length) ++ natRepr i) := by
  refine ⟨by decide, ?_, ?_⟩
  · intro base used c hcoll h
    exact pickName_collision base used c hcoll h
  · intro base i hlen
    unfold candAt
    apply List.take_of_length_le
    rw [List.length_append]
    have := List.length_take_le (10 - (natRepr i).length) base
    omega

theorem collision_suffix_scheme_witness :
    lowerName "x1".data ∉ ["x".data] ∧ ∃ j, 1 ≤ j ∧
      "x1".data = candAt "x".data j ∧
      ∀ k, 1 ≤ k → k < j → lowerName (candAt "x".data k) ∈ ["x".data] :=
  collision_suffix_scheme.2.1 "x".data ["x".data] "x1".data (by decide) (by decide)

/-- C9: the Field Sanitizer returns a new derived dataset: the rows (and thus
every cell value, in the same positional column order) are exactly the input
rows, and there is one output column per input column — only names change.  In
the purely functional embedding, as in the source (`df.copy()`), the caller's
input dataset is not mutated. -/
theorem sanitizer_preserves_rows (df out : DF)
    (h : safe_shapefile_columns df = some out) :
    out.rows = df.rows ∧ out.cols.length = df.cols.length := by
  unfold safe_shapefile_columns at h
  cases hs : safeNames [] df.cols with
  | none => rw [hs] at h; exact absurd h (by simp)
  | some ncs =>
      rw [hs] at h
      obtain rfl := Option.some.inj h
      exact ⟨rfl, (safeNames_props df.cols [] ncs hs).1⟩

theorem sanitizer_preserves_rows_witness :
    (⟨["Temp_C".data, "Temp_C1".data], [[Cell.na]]⟩ : DF).rows =
        (⟨["Temp-C".data, "Temp_C".data], [[Cell.na]]⟩ : DF).rows ∧
      (⟨["Temp_C".data, "Temp_C1".data], [[Cell.na]]⟩ : DF).cols.length =
        (⟨["Temp-C".data, "Temp_C".data], [[Cell.na]]⟩ : DF).cols.length :=
  sanitizer_preserves_rows ⟨["Temp-C".data, "Temp_C".data], [[Cell.na]]⟩
    ⟨["Temp_C".data, "Temp_C1".data], [[Cell.na]]⟩ (by decide)

/-! ### Claim theorems: the Column Resolver -/

theorem find?_first {p : Name → Bool} : ∀ (l : List Name) c,
    l.find? p = some c →
    p c = true ∧ ∃ pre suf, l = pre ++ c :: suf ∧ ∀ b ∈ pre, p b = false := by
  intro l
  induction l with
  | nil => intro c h; simp [List.find?] at h
  | cons a l ih =>
      intro c h
      cases hpa : p a with
      | false =>
          rw [List.find?_cons_of_neg _ (by simp [hpa])] at h
          obtain ⟨hc, pre, suf, rfl, hall⟩ := ih c h
          refine ⟨hc, a :: pre, suf, rfl, ?_⟩
          intro b hb
          rcases List.mem_cons.mp hb with rfl | hb2
          · exact hpa
          · exact hall b hb2
      | true =>
          rw [List.find?_cons_of_pos _ hpa] at h
          obtain rfl := Option.some.inj h
          exact ⟨hpa, [], l, rfl, by simp⟩

/-- C4: for each alias set the Column Resolver returns the first column, in
original order, whose normalized form lies in that set (everything before it
fails to match), and returns `none` exactly when no column's normalized form
is in the set; being a total function it raises nothing. -/
theorem resolver_first_match (cols : List Name) :
    (∀ c, (guess_lat_lon_columns cols).1 = some c →
        normalize_col c ∈ LAT_ALIASES ∧ ∃ pre suf, cols = pre ++ c :: suf ∧
          ∀ b ∈ pre, normalize_col b ∉ LAT_ALIASES) ∧
    ((guess_lat_lon_columns cols).1 = none ↔
        ∀ c ∈ cols, normalize_col c ∉ LAT_ALIASES) ∧
    (∀ c, (guess_lat_lon_columns cols).2 = some c →
        normalize_col c ∈ LON_ALIASES ∧ ∃ pre suf, cols = pre ++ c :: suf ∧
          ∀ b ∈ pre, normalize_col b ∉ LON_ALIASES) ∧
    ((guess_lat_lon_columns cols).2 = none ↔
        ∀ c ∈ cols, normalize_col c ∉ LON_ALIASES) := by
  refine ⟨?_, ?_, ?_, ?_⟩
  · intro c h
    obtain ⟨hc, pre, suf, heq, hall⟩ := find?_first cols c h
    refine ⟨by simpa using hc, pre, suf, heq, ?_⟩
    intro b hb
    have := hall b hb
    simpa using this
  · unfold guess_lat_lon_columns
    rw [List.find?_eq_none]
    constructor
    · intro h c hc
      have := h c hc
      simpa using this
    · intro h c hc
      simpa using h c hc
  · intro c h
    obtain ⟨hc, pre, suf, heq, hall⟩ := find?_first cols c h
    refine ⟨by simpa using hc, pre, suf, heq, ?_⟩
    intro b hb
    have := hall b hb
    simpa using this
  · unfold guess_lat_lon_columns
    rw [List.find?_eq_none]
    constructor
    · intro h c hc
      have := h c hc
      simpa using this
    · intro h c hc
      simpa using h c hc

theorem resolver_first_match_witness :
    normalize_col "Lat".data ∈ LAT_ALIASES ∧ ∃ pre suf,
      ["Station Name (ID)".data, "Lat".data, "Lon".data] =
        pre ++ "Lat".data :: suf ∧
      ∀ b ∈ pre, normalize_col b ∉ LAT_ALIASES :=
  (resolver_first_match ["Station Name (ID)".data, "Lat".data, "Lon".data]).1
    "Lat".data (by decide)

/-! ### Row-level behavior of the numeric coercion -/

theorem getD_set_self {α : Type} : ∀ (l : List α) (i : Nat) (v d : α),
    i < l.length → (l.set i v).getD i d = v := by
  intro l
  induction l with
  | nil => intro i v d h; simp at h
  | cons a l ih =>
      intro i v d h
      cases i with
      | zero => rfl
      | succ i =>
          simp only [List.set_cons_succ, List.getD_cons_succ]
          exact ih i v d (by simpa using h)

theorem getD_set_ne {α : Type} : ∀ (l : List α) (i j : Nat) (v d : α),
    i ≠ j → (l.set i v).getD j d = l.getD j d := by
  intro l
  induction l with
  | nil => intro i j v d _; simp [List.getD]
  | cons a l ih =>
      intro i j v d h
      cases i with
      | zero =>
          cases j with
          | zero => exact absurd rfl h
          | succ j => rfl
      | succ i =>
          cases j with
          | zero => rfl
          | succ j =>
              simp only [List.set_cons_succ, List.getD_cons_succ]
              exact ih i j v d (by omega)

theorem getD_set_oob {α : Type} (l : List α) (i : Nat) (v d : α)
    (h : l.length ≤ i) : (l.set i v).getD i d = d := by
  rw [List.set_eq_of_length_le h]
  rw [List.getD_eq_getElem?_getD, List.getElem?_eq_none h]
  rfl

theorem toNumericCell_numCell (o : Option PyFloat) :
    toNumericCell (numCell o) = o := by
  cases o <;> rfl

theorem cellIsNum_numCell (o : Option PyFloat) : cellIsNum (numCell o) = o.isSome := by
  cases o <;> rfl

theorem coerceAt_length (idx : Nat) (r : List Cell) :
    (coerceAt idx r).length = r.length := List.length_set r idx _

theorem coerceAt_getD_self (idx : Nat) (r : List Cell) :
    (coerceAt idx r).getD idx Cell.na =
      numCell (toNumericCell (r.getD idx Cell.na)) := by
  unfold coerceAt
  by_cases h : idx < r.length
  · exact getD_set_self r idx _ _ h
  · have hoob : r.getD idx Cell.na = Cell.na := by
      rw [List.getD_eq_getElem?_getD, List.getElem?_eq_none (by omega)]
      rfl
    rw [List.set_eq_of_length_le (by omega), hoob]
    rfl

theorem coerceAt_getD_ne (idx j : Nat) (r : List Cell) (h : idx ≠ j) :
    (coerceAt idx r).getD j Cell.na = r.getD j Cell.na :=
  getD_set_ne r idx j _ _ h

theorem coerce_getD (li lo : Nat) (r : List Cell) :
    (coerceAt lo (coerceAt li r)).getD li Cell.na =
        numCell (toNumericCell (r.getD li Cell.na)) ∧
      (coerceAt lo (coerceAt li r)).getD lo Cell.na =
        numCell (toNumericCell (r.getD lo Cell.na)) := by
  constructor
  · by_cases heq : lo = li
    · subst heq
      rw [coerceAt_getD_self, coerceAt_getD_self, toNumericCell_numCell]
    · rw [coerceAt_getD_ne lo li _ heq, coerceAt_getD_self]
  · rw [coerceAt_getD_self]
    by_cases heq : li = lo
    · subst heq
      rw [coerceAt_getD_self, toNumericCell_numCell]
    · rw [coerceAt_getD_ne li lo r heq]

/-! ### Claim theorems: the Geometry Builder -/

/-- C5 counterexample: a latitude cell `"inf"` coerces successfully, so its
row is kept and the output contains a non-finite coordinate — refuting the
claim's "all coordinates in the output are finite numeric values". -/
theorem builder_finiteness_cex :
    (build_gdf_from_csv
        ⟨["Lat".data, "Lon".data],
          [[Cell.text "inf".data, Cell.text "77.985".data]]⟩
        "Lat".data "Lon".data).map GDF.points =
      some [(PyFloat.fin (mkRat 77985 1000), PyFloat.posInf)] ∧
    pfIsFinite PyFloat.posInf = false := by
  exact ⟨by decide, by decide⟩

/-- C5 (amended): the Geometry Builder keeps exactly the rows whose two
coordinate cells both coerce to numbers (rows failing coercion are excluded
entirely), builds one `(x, y) = (longitude, latitude)` point per surviving
row, and tags the collection `EPSG:4326`.  Coordinates need not be finite:
infinity literals coerce to infinite values that are kept. -/
theorem builder_points_spec (df : DF) (latc lonc : Name) (li lo : Nat)
    (gdf : GDF)
    (hli : df.cols.findIdx? (fun c => decide (c = latc)) = some li)
    (hlo : df.cols.findIdx? (fun c => decide (c = lonc)) = some lo)
    (h : build_gdf_from_csv df latc lonc = some gdf) :
    gdf.crs = "EPSG:4326".data ∧
    gdf.rows = (df.rows.filter (fun r =>
        (toNumericCell (r.getD li Cell.na)).isSome &&
          (toNumericCell (r.getD lo Cell.na)).isSome)).map
      (fun r => coerceAt lo (coerceAt li r)) ∧
    gdf.points = (df.rows.filter (fun r =>
        (toNumericCell (r.getD li Cell.na)).isSome &&
          (toNumericCell (r.getD lo Cell.na)).isSome)).map
      (fun r => ((toNumericCell (r.getD lo Cell.na)).getD (PyFloat.fin 0),
                 (toNumericCell (r.getD li Cell.na)).getD (PyFloat.fin 0))) ∧
    gdf.points.length = gdf.rows.length := by
  simp only [build_gdf_from_csv, hli, hlo] at h
  obtain rfl := Option.some.inj h
  have hfilter : (df.rows.map (fun r => coerceAt lo (coerceAt li r))).filter
      (fun r => cellIsNum (r.getD li Cell.na) && cellIsNum (r.getD lo Cell.na)) =
      (df.rows.filter (fun r =>
        (toNumericCell (r.getD li Cell.na)).isSome &&
          (toNumericCell (r.getD lo Cell.na)).isSome)).map
      (fun r => coerceAt lo (coerceAt li r)) := by
    rw [List.filter_map]
    congr 1
    apply List.filter_congr
    intro r _
    simp only [Function.comp_apply]
    rw [(coerce_getD li lo r).1, (coerce_getD li lo r).2,
      cellIsNum_numCell, cellIsNum_numCell]
  refine ⟨rfl, hfilter, ?_, ?_⟩
  · show ((df.rows.map (fun r => coerceAt lo (coerceAt li r))).filter
        (fun r => cellIsNum (r.getD li Cell.na) && cellIsNum (r.getD lo Cell.na))).map
        (fun r => (cellVal (r.getD lo Cell.na), cellVal (r.getD li Cell.na))) = _
    rw [hfilter, List.map_map]
    apply List.map_congr_left
    intro r hr
    have hp := (List.mem_filter.mp hr).2
    simp only [Bool.and_eq_true, Option.isSome_iff_exists] at hp
    obtain ⟨⟨qa, hqa⟩, qb, hqb⟩ := hp
    simp only [Function.comp_apply]
    rw [(coerce_getD li lo r).1, (coerce_getD li lo r).2, hqa, hqb]
    rfl
  · show (List.map _ _).length = _
    rw [List.length_map]

theorem builder_points_spec_witness :
    (⟨["Station Name (ID)".data, "Lat".data, "Lon".data],
        [[Cell.text "A-1".data, Cell.num (PyFloat.fin (mkRat 30284 1000)),
          Cell.num (PyFloat.fin (mkRat 77985 1000))]],
        [(PyFloat.fin (mkRat 77985 1000), PyFloat.fin (mkRat 30284 1000))], "EPSG:4326".data⟩ : GDF).crs =
        "EPSG:4326".data ∧
    (⟨["Station Name (ID)".data, "Lat".data, "Lon".data],
        [[Cell.text "A-1".data, Cell.num (PyFloat.fin (mkRat 30284 1000)),
          Cell.num (PyFloat.fin (mkRat 77985 1000))]],
        [(PyFloat.fin (mkRat 77985 1000), PyFloat.fin (mkRat 30284 1000))], "EPSG:4326".data⟩ : GDF).rows =
      ((⟨["Station Name (ID)".data, "Lat".data, "Lon".data],
          [[Cell.text "A-1".data, Cell.text "30.284".data,
            Cell.text "77.985".data]]⟩ : DF).rows.filter (fun r =>
        (toNumericCell (r.getD 1 Cell.na)).isSome &&
          (toNumericCell (r.getD 2 Cell.na)).isSome)).map
      (fun r => coerceAt 2 (coerceAt 1 r)) ∧
    (⟨["Station Name (ID)".data, "Lat".data, "Lon".data],
        [[Cell.text "A-1".data, Cell.num (PyFloat.fin (mkRat 30284 1000)),
          Cell.num (PyFloat.fin (mkRat 77985 1000))]],
        [(PyFloat.fin (mkRat 77985 1000), PyFloat.fin (mkRat 30284 1000))], "EPSG:4326".data⟩ : GDF).points =
      ((⟨["Station Name (ID)".data, "Lat".data, "Lon".data],
          [[Cell.text "A-1".data, Cell.text "30.284".data,
            Cell.text "77.985".data]]⟩ : DF).rows.filter (fun r =>
        (toNumericCell (r.getD 1 Cell.na)).isSome &&
          (toNumericCell (r.getD 2 Cell.na)).isSome)).map
      (fun r => ((toNumericCell (r.getD 2 Cell.na)).getD (PyFloat.fin 0),
                 (toNumericCell (r.getD 1 Cell.na)).getD (PyFloat.fin 0))) ∧
    (⟨["Station Name (ID)".data, "Lat".data, "Lon".data],
        [[Cell.text "A-1".data, Cell.num (PyFloat.fin (mkRat 30284 1000)),
          Cell.num (PyFloat.fin (mkRat 77985 1000))]],
        [(PyFloat.fin (mkRat 77985 1000), PyFloat.fin (mkRat 30284 1000))],
        "EPSG:4326".data⟩ : GDF).points.length =
      (⟨["Station Name (ID)".data, "Lat".data, "Lon".data],
        [[Cell.text "A-1".data, Cell.num (PyFloat.fin (mkRat 30284 1000)),
          Cell.num (PyFloat.fin (mkRat 77985 1000))]],
        [(PyFloat.fin (mkRat 77985 1000), PyFloat.fin (mkRat 30284 1000))],
        "EPSG:4326".data⟩ : GDF).rows.length :=
  builder_points_spec
    ⟨["Station Name (ID)".data, "Lat".data, "Lon".data],
      [[Cell.text "A-1".data, Cell.text "30.284".data, Cell.text "77.985".data]]⟩
    "Lat".data "Lon".data 1 2 _ (by decide) (by decide) (by decide)

theorem build_points_len (df : DF) (latc lonc : Name) (gdf : GDF)
    (h : build_gdf_from_csv df latc lonc = some gdf) :
    gdf.points.length = gdf.rows.length := by
  cases hli : df.cols.findIdx? (fun c => decide (c = latc)) with
  | none =>
      simp only [build_gdf_from_csv, hli] at h
      exact absurd h (by simp)
  | some li =>
      cases hlo : df.cols.findIdx? (fun c => decide (c = lonc)) with
      | none =>
          simp only [build_gdf_from_csv, hli, hlo] at h
          exact absurd h (by simp)
      | some lo =>
          simp only [build_gdf_from_csv, hli, hlo] at h
          obtain rfl := Option.some.inj h
          show (List.map _ _).length = _
          rw [List.length_map]

/-! ### Claim theorems: the conversion flow -/

/-- C3: when zero rows survive numeric coercion, the conversion flow stops
with the empty-result failure; no point geometry exists (the collection is
empty) and no writer input — hence no file — is produced, whatever output CRS
was requested and whatever the reprojection does. -/
theorem empty_result_stops (reproj : GDF → Name → Except Name GDF) (df : DF)
    (latc lonc outCrs : Name) (gdf : GDF)
    (hb : build_gdf_from_csv df latc lonc = some gdf)
    (hempty : gdf.rows = []) :
    runPipeline reproj df latc lonc outCrs =
        some (Except.error PipeError.emptyResult) ∧
      gdf.points = [] := by
  constructor
  · simp [runPipeline, hb, hempty]
  · have hlen := build_points_len df latc lonc gdf hb
    rw [hempty] at hlen
    simpa using List.length_eq_zero.mp (by simpa using hlen)

theorem empty_result_stops_witness :
    runPipeline (fun g _ => Except.ok g)
        ⟨["Lat".data, "Lon".data], [[Cell.text "abc".data, Cell.text "1".data]]⟩
        "Lat".data "Lon".data "EPSG:32643".data =
        some (Except.error PipeError.emptyResult) ∧
      (⟨["Lat".data, "Lon".data], [], [], "EPSG:4326".data⟩ : GDF).points = [] :=
  empty_result_stops (fun g _ => Except.ok g)
    ⟨["Lat".data, "Lon".data], [[Cell.text "abc".data, Cell.text "1".data]]⟩
    "Lat".data "Lon".data "EPSG:32643".data
    ⟨["Lat".data, "Lon".data], [], [], "EPSG:4326".data⟩ (by decide) (by decide)

/-- C7: when a non-default output CRS is requested and the transform fails,
the conversion flow stops with a reprojection failure carrying the underlying
cause; it does not fall through to sanitizing or writing, so no unprojected
data is passed off as converted output and no file is produced. -/
theorem reprojection_failure_stops (reproj : GDF → Name → Except Name GDF)
    (df : DF) (latc lonc outCrs : Name) (gdf : GDF) (cause : Name)
    (hb : build_gdf_from_csv df latc lonc = some gdf)
    (hne : gdf.rows ≠ [])
    (hcrs : outCrs ≠ "EPSG:4326".data)
    (hfail : reproj gdf outCrs = Except.error cause) :
    runPipeline reproj df latc lonc outCrs =
      some (Except.error (PipeError.reprojectFailed cause)) := by
  have hlen : ¬gdf.rows.length = 0 :=
    fun hc => hne (List.length_eq_zero.mp hc)
  simp only [runPipeline, hb, if_neg hlen, if_neg hcrs, hfail]

theorem reprojection_failure_stops_witness :
    runPipeline (fun _ _ => Except.error "crs not recognized".data)
        ⟨["Lat".data, "Lon".data], [[Cell.text "1".data, Cell.text "2".data]]⟩
        "Lat".data "Lon".data "EPSG:99999999".data =
      some (Except.error
        (PipeError.reprojectFailed "crs not recognized".data)) :=
  reprojection_failure_stops (fun _ _ => Except.error "crs not recognized".data)
    ⟨["Lat".data, "Lon".data], [[Cell.text "1".data, Cell.text "2".data]]⟩
    "Lat".data "Lon".data "EPSG:99999999".data
    ⟨["Lat".data, "Lon".data],
      [[Cell.num (PyFloat.fin (mkRat 1 1)), Cell.num (PyFloat.fin (mkRat 2 1))]],
      [(PyFloat.fin (mkRat 2 1), PyFloat.fin (mkRat 1 1))], "EPSG:4326".data⟩
    "crs not recognized".data (by decide) (by decide) (by decide) rfl

/-- C8: the range-sanity check is advisory only: with the default output CRS
the conversion succeeds whatever the coordinates are; every out-of-range row
is counted in the surfaced warning count, yet all points and rows — including
out-of-range ones — are kept, and no error arises from the range check. -/
theorem range_check_advisory (reproj : GDF → Name → Except Name GDF) (df : DF)
    (latc lonc : Name) (gdf : GDF) (ncs : List Name)
    (hb : build_gdf_from_csv df latc lonc = some gdf)
    (hne : gdf.rows ≠ [])
    (hsafe : safeNames [] gdf.cols = some ncs) :
    runPipeline reproj df latc lonc "EPSG:4326".data =
      some (Except.ok
        { cols := ncs, rows := gdf.rows, points := gdf.points, crs := gdf.crs,
          outOfRange := gdf.points.countP outOfRangePt }) := by
  have hlen : ¬gdf.rows.length = 0 :=
    fun hc => hne (List.length_eq_zero.mp hc)
  simp [runPipeline, hb, if_neg hlen, hsafe, hne]

theorem range_check_advisory_witness :
    runPipeline (fun g _ => Except.ok g)
        ⟨["Lat".data, "Lon".data],
          [[Cell.text "1000".data, Cell.text "2000".data]]⟩
        "Lat".data "Lon".data "EPSG:4326".data =
      some (Except.ok
        { cols := ["Lat".data, "Lon".data]
          rows := (⟨["Lat".data, "Lon".data],
            [[Cell.num (PyFloat.fin (mkRat 1000 1)), Cell.num (PyFloat.fin (mkRat 2000 1))]],
            [(PyFloat.fin (mkRat 2000 1), PyFloat.fin (mkRat 1000 1))], "EPSG:4326".data⟩ : GDF).rows
          points := (⟨["Lat".data, "Lon".data],
            [[Cell.num (PyFloat.fin (mkRat 1000 1)), Cell.num (PyFloat.fin (mkRat 2000 1))]],
            [(PyFloat.fin (mkRat 2000 1), PyFloat.fin (mkRat 1000 1))], "EPSG:4326".data⟩ : GDF).points
          crs := (⟨["Lat".data, "Lon".data],
            [[Cell.num (PyFloat.fin (mkRat 1000 1)), Cell.num (PyFloat.fin (mkRat 2000 1))]],
            [(PyFloat.fin (mkRat 2000 1), PyFloat.fin (mkRat 1000 1))], "EPSG:4326".data⟩ : GDF).crs
          outOfRange := (⟨["Lat".data, "Lon".data],
            [[Cell.num (PyFloat.fin (mkRat 1000 1)), Cell.num (PyFloat.fin (mkRat 2000 1))]],
            [(PyFloat.fin (mkRat 2000 1), PyFloat.fin (mkRat 1000 1))],
            "EPSG:4326".data⟩ : GDF).points.countP outOfRangePt }) :=
  range_check_advisory (fun g _ => Except.ok g)
    ⟨["Lat".data, "Lon".data], [[Cell.text "1000".data, Cell.text "2000".data]]⟩
    "Lat".data "Lon".data
    ⟨["Lat".data, "Lon".data],
      [[Cell.num (PyFloat.fin (mkRat 1000 1)), Cell.num (PyFloat.fin (mkRat 2000 1))]],
      [(PyFloat.fin (mkRat 2000 1), PyFloat.fin (mkRat 1000 1))], "EPSG:4326".data⟩
    ["Lat".data, "Lon".data] (by decide) (by decide) (by decide)

/-! ### Claim theorems: the worked scenario -/

/-- C2 counterexample: in the worked scenario the Field Sanitizer maps
"Station Name (ID)" to "Station_Na" (illegal characters are replaced by
underscores, then truncated to 10), not to "StationNam" as claimed. -/
theorem scenario_station_cex :
    safeNames [] ["Station Name (ID)".data, "Lat".data, "Lon".data] =
        some ["Station_Na".data, "Lat".data, "Lon".data] ∧
      ¬safeNames [] ["Station Name (ID)".data, "Lat".data, "Lon".data] =
        some ["StationNam".data, "Lat".data, "Lon".data] := by
  constructor
  · decide
  · decide

/-- C2 (amended): for columns ["Station Name (ID)", "Lat", "Lon"] with the
single row ["A-1", "30.284", "77.985"], the Resolver picks "Lat" and "Lon",
the Geometry Builder yields exactly one point at (77.985, 30.284) tagged
EPSG:4326, and the Field Sanitizer maps "Station Name (ID)" to "Station_Na"
(not "StationNam"). -/
theorem scenario_station_row :
    guess_lat_lon_columns ["Station Name (ID)".data, "Lat".data, "Lon".data] =
        (some "Lat".data, some "Lon".data) ∧
      (build_gdf_from_csv
          ⟨["Station Name (ID)".data, "Lat".data, "Lon".data],
            [[Cell.text "A-1".data, Cell.text "30.284".data,
              Cell.text "77.985".data]]⟩
          "Lat".data "Lon".data).map GDF.points =
        some [(PyFloat.fin (mkRat 77985 1000), PyFloat.fin (mkRat 30284 1000))] ∧
      (build_gdf_from_csv
          ⟨["Station Name (ID)".data, "Lat".data, "Lon".data],
            [[Cell.text "A-1".data, Cell.text "30.284".data,
              Cell.text "77.985".data]]⟩
          "Lat".data "Lon".data).map GDF.crs = some "EPSG:4326".data ∧
      safeNames [] ["Station Name (ID)".data, "Lat".data, "Lon".data] =
        some ["Station_Na".data, "Lat".data, "Lon".data] := by
  refine ⟨by decide, by decide, by decide, by decide⟩
